import Mathlib

/-
  Verification of the IoT device-management backend (Express + SQLite CRUD
  service for device records).

  The development shallowly embeds:
  * the data-access layer (`db.js`): the `devices` table as a list of rows
    plus an AUTOINCREMENT counter, and the five CRUD operations
    (`createDevice`, `getAllDevices`, `getDeviceById`, `updateDevice`,
    `deleteDevice`) as pure state-passing functions.  SQLite's
    `CURRENT_TIMESTAMP` is modelled by an explicit timestamp argument `t`
    given to each operation; rejected promises become `Except` errors.
  * the route layer (`routes/devices.js`): the Joi validation schemas and
    the five HTTP handlers, including JavaScript `parseInt` semantics for
    the `:id` path segment.  Each handler also reports the list of store
    operations it performed, so "the request reaches the store" is an
    observable property.
  * the external JSON library (`JSON.stringify` / `JSON.parse`), which the
    repository treats as an opaque (de)serializer for config blobs.  It is
    modelled by a JSON value type `Json` together with an injective,
    executable encoder `Json.stringify` and a decoder `Json.parse` proved
    to be its left inverse (`Json.parse_stringify`); strings outside the
    encoder's image fail to parse, which models `JSON.parse` throwing.
    The concrete text format of the encoder is a model choice (tagged,
    length-prefixed); the repository never inspects the stored text other
    than through parse/stringify, and `stringify {} = "{}"` is arranged to
    match the SQL column default `'{}'` literally.  JavaScript numbers are
    modelled as integers.
-/

mutual

inductive Json where
  | null : Json
  | bool (b : Bool) : Json
  | num (n : Int) : Json
  | str (s : String) : Json
  | arr (elems : JsonArr) : Json
  | obj (fields : JsonObj) : Json
deriving DecidableEq, Repr

inductive JsonArr where
  | nil : JsonArr
  | cons (hd : Json) (tl : JsonArr) : JsonArr
deriving DecidableEq, Repr

inductive JsonObj where
  | nil : JsonObj
  | cons (key : String) (val : Json) (tl : JsonObj) : JsonObj
deriving DecidableEq, Repr

end

def digitChar (d : Nat) : Char :=
  match d with
  | 0 => '0' | 1 => '1' | 2 => '2' | 3 => '3' | 4 => '4'
  | 5 => '5' | 6 => '6' | 7 => '7' | 8 => '8' | _ => '9'

def encNatAux : Nat → Nat → List Char
  | 0, _ => []
  | _ + 1, 0 => []
  | fuel + 1, n + 1 => digitChar ((n + 1) % 10) :: encNatAux fuel ((n + 1) / 10)

def encNat (n : Nat) : List Char := encNatAux n n

def encInt (n : Int) : List Char :=
  if n < 0 then '-' :: encNat (-n).toNat else encNat n.toNat

mutual

def encJson : Json → List Char
  | .null => ['N']
  | .bool true => ['T']
  | .bool false => ['F']
  | .num n => '#' :: encInt n ++ [';']
  | .str s => '$' :: encNat s.length ++ ';' :: s.data
  | .arr xs => '[' :: encArr xs ++ [']']
  | .obj kvs => '{' :: encObj kvs ++ ['}']

def encArr : JsonArr → List Char
  | .nil => []
  | .cons j tl => encJson j ++ encArr tl

def encObj : JsonObj → List Char
  | .nil => []
  | .cons k v tl => '$' :: encNat k.length ++ ';' :: k.data ++ encJson v ++ encObj tl

end

def charVal (c : Char) : Nat := c.toNat - 48

def isDigitCh (c : Char) : Bool := '0' ≤ c && c ≤ '9'

def decNat : List Char → Option (Nat × List Char)
  | [] => none
  | c :: cs =>
    if c = ';' then some (0, cs)
    else if isDigitCh c then
      (decNat cs).map (fun p => (charVal c + 10 * p.1, p.2))
    else none

theorem digitChar_facts (d : Nat) (h : d < 10) :
    isDigitCh (digitChar d) = true ∧ digitChar d ≠ ';' ∧ charVal (digitChar d) = d := by
  interval_cases d <;> exact ⟨rfl, by decide, rfl⟩

theorem decNat_encNatAux (fuel : Nat) :
    ∀ n rest, n ≤ fuel → decNat (encNatAux fuel n ++ ';' :: rest) = some (n, rest) := by
  induction fuel with
  | zero =>
    intro n rest h
    interval_cases n
    simp [encNatAux, decNat]
  | succ fuel ih =>
    intro n rest h
    match n with
    | 0 => simp [encNatAux, decNat]
    | m + 1 =>
      have hd : (m + 1) % 10 < 10 := Nat.mod_lt _ (by norm_num)
      obtain ⟨h1, h2, h3⟩ := digitChar_facts _ hd
      have hle : (m + 1) / 10 ≤ fuel := by
        have := Nat.div_lt_self (Nat.succ_pos m) (by norm_num : 1 < 10)
        omega
      simp only [encNatAux, List.cons_append, decNat, if_neg h2, h1, if_pos rfl, if_true,
        List.append_eq, ih _ rest hle, Option.map_some, h3]
      have hmod : (m + 1) % 10 + 10 * ((m + 1) / 10) = m + 1 := by omega
      simp [hmod]

theorem decNat_encNat (n : Nat) (rest : List Char) :
    decNat (encNat n ++ ';' :: rest) = some (n, rest) :=
  decNat_encNatAux n n rest (Nat.le_refl n)

def decInt (cs : List Char) : Option (Int × List Char) :=
  match cs with
  | [] => none
  | c :: cs' =>
    if c = '-' then (decNat cs').map (fun p => (-(p.1 : Int), p.2))
    else (decNat (c :: cs')).map (fun p => ((p.1 : Int), p.2))

theorem digitChar_ne_dash (d : Nat) : digitChar d ≠ '-' := by
  unfold digitChar
  split <;> decide

theorem encNatAux_shape (fuel n : Nat) :
    encNatAux fuel n = [] ∨ ∃ d cs, encNatAux fuel n = digitChar d :: cs := by
  match fuel, n with
  | 0, _ => exact Or.inl rfl
  | _ + 1, 0 => exact Or.inl rfl
  | f + 1, m + 1 => exact Or.inr ⟨(m + 1) % 10, encNatAux f ((m + 1) / 10), rfl⟩

theorem encNat_nil_iff (n : Nat) : encNat n = [] ↔ n = 0 := by
  constructor
  · intro h
    match n with
    | 0 => rfl
    | m + 1 => simp [encNat, encNatAux] at h
  · rintro rfl
    rfl

theorem decInt_cons (c : Char) (hc : c ≠ '-') (cs : List Char) :
    decInt (c :: cs) = (decNat (c :: cs)).map (fun p => ((p.1 : Int), p.2)) := by
  simp [decInt, hc]

theorem decInt_encInt (n : Int) (rest : List Char) :
    decInt (encInt n ++ ';' :: rest) = some (n, rest) := by
  match n with
  | Int.ofNat m =>
    have hnn : ¬ ((Int.ofNat m) < 0) := Int.not_lt.mpr (Int.ofNat_nonneg m)
    have htn : (Int.ofNat m).toNat = m := rfl
    rw [encInt, if_neg hnn, htn]
    rcases encNatAux_shape m m with hnil | ⟨d, cs, hcons⟩
    · have hm : m = 0 := (encNat_nil_iff m).mp hnil
      subst hm
      simp [encNat, encNatAux, decInt, decNat]
    · rw [show encNat m = digitChar d :: cs from hcons, List.cons_append,
        decInt_cons _ (digitChar_ne_dash d), ← List.cons_append,
        show digitChar d :: cs = encNat m from hcons.symm, decNat_encNat]
      rfl
  | Int.negSucc m =>
    have hneg : (Int.negSucc m) < 0 := Int.negSucc_lt_zero m
    have htn : (-(Int.negSucc m)).toNat = m + 1 := rfl
    rw [encInt, if_pos hneg, htn, List.cons_append]
    have hstep : decInt ('-' :: (encNat (m + 1) ++ ';' :: rest)) =
        (decNat (encNat (m + 1) ++ ';' :: rest)).map (fun p => (-(p.1 : Int), p.2)) := by
      simp [decInt]
    rw [hstep, decNat_encNat]
    simp [Int.negSucc_eq]

def takeN : Nat → List Char → Option (List Char × List Char)
  | 0, cs => some ([], cs)
  | _ + 1, [] => none
  | k + 1, c :: cs => (takeN k cs).map (fun p => (c :: p.1, p.2))

theorem takeN_append (l rest : List Char) :
    takeN l.length (l ++ rest) = some (l, rest) := by
  induction l with
  | nil => rfl
  | cons c cs ih => simp [takeN, ih]

mutual

def decJson : Nat → List Char → Option (Json × List Char)
  | 0, _ => none
  | fuel + 1, cs =>
    match cs with
    | [] => none
    | c :: cs' =>
      if c = 'N' then some (.null, cs')
      else if c = 'T' then some (.bool true, cs')
      else if c = 'F' then some (.bool false, cs')
      else if c = '#' then (decInt cs').map (fun p => (Json.num p.1, p.2))
      else if c = '$' then
        (decNat cs').bind (fun p => (takeN p.1 p.2).map (fun q => (Json.str ⟨q.1⟩, q.2)))
      else if c = '[' then (decArr fuel cs').map (fun p => (Json.arr p.1, p.2))
      else if c = '{' then (decObj fuel cs').map (fun p => (Json.obj p.1, p.2))
      else none

def decArr : Nat → List Char → Option (JsonArr × List Char)
  | 0, _ => none
  | fuel + 1, cs =>
    match cs with
    | [] => none
    | c :: cs' =>
      if c = ']' then some (.nil, cs')
      else (decJson fuel (c :: cs')).bind (fun p =>
        (decArr fuel p.2).map (fun q => (JsonArr.cons p.1 q.1, q.2)))

def decObj : Nat → List Char → Option (JsonObj × List Char)
  | 0, _ => none
  | fuel + 1, cs =>
    match cs with
    | [] => none
    | c :: cs' =>
      if c = '}' then some (.nil, cs')
      else if c = '$' then
        (decNat cs').bind (fun p => (takeN p.1 p.2).bind (fun q =>
          (decJson fuel q.2).bind (fun r =>
            (decObj fuel r.2).map (fun w => (JsonObj.cons ⟨q.1⟩ r.1 w.1, w.2)))))
      else none

end

mutual

def needJ : Json → Nat
  | .null => 1
  | .bool _ => 1
  | .num _ => 1
  | .str _ => 1
  | .arr xs => needA xs + 1
  | .obj kvs => needO kvs + 1

def needA : JsonArr → Nat
  | .nil => 1
  | .cons j tl => needJ j + needA tl

def needO : JsonObj → Nat
  | .nil => 1
  | .cons _ v tl => needJ v + needO tl

end

theorem needJ_pos (j : Json) : 1 ≤ needJ j := by
  cases j <;> simp [needJ]

theorem needA_pos (xs : JsonArr) : 1 ≤ needA xs := by
  cases xs with
  | nil => simp [needA]
  | cons j tl => have := needJ_pos j; simp [needA]; omega

theorem needO_pos (kvs : JsonObj) : 1 ≤ needO kvs := by
  cases kvs with
  | nil => simp [needO]
  | cons k v tl => have := needJ_pos v; simp [needO]; omega

theorem encJson_shape (j : Json) :
    ∃ c cs, encJson j = c :: cs ∧ c ≠ ']' ∧ c ≠ '}' := by
  cases j with
  | null => exact ⟨'N', [], rfl, by decide, by decide⟩
  | bool b => cases b with
    | true => exact ⟨'T', [], rfl, by decide, by decide⟩
    | false => exact ⟨'F', [], rfl, by decide, by decide⟩
  | num n => exact ⟨'#', encInt n ++ [';'], by simp [encJson], by decide, by decide⟩
  | str s => exact ⟨'$', encNat s.length ++ ';' :: s.data, by simp [encJson], by decide, by decide⟩
  | arr xs => exact ⟨'[', encArr xs ++ [']'], by simp [encJson], by decide, by decide⟩
  | obj kvs => exact ⟨'{', encObj kvs ++ ['}'], by simp [encJson], by decide, by decide⟩

theorem encJson_null : encJson .null = ['N'] := rfl

theorem encJson_true : encJson (.bool true) = ['T'] := rfl

theorem encJson_false : encJson (.bool false) = ['F'] := rfl

theorem encJson_num (n : Int) : encJson (.num n) = '#' :: encInt n ++ [';'] := rfl

theorem encJson_str (s : String) : encJson (.str s) = '$' :: encNat s.length ++ ';' :: s.data := rfl

theorem encJson_arr (xs : JsonArr) : encJson (.arr xs) = '[' :: encArr xs ++ [']'] := rfl

theorem encJson_obj (kvs : JsonObj) : encJson (.obj kvs) = '{' :: encObj kvs ++ ['}'] := rfl

theorem encArr_nil : encArr .nil = [] := rfl

theorem encArr_cons (j : Json) (tl : JsonArr) : encArr (.cons j tl) = encJson j ++ encArr tl := rfl

theorem encObj_nil : encObj .nil = [] := rfl

theorem encObj_cons (k : String) (v : Json) (tl : JsonObj) :
    encObj (.cons k v tl) = '$' :: encNat k.length ++ ';' :: k.data ++ encJson v ++ encObj tl := rfl

theorem decJson_cons (fuel : Nat) (c : Char) (cs' : List Char) :
    decJson (fuel + 1) (c :: cs') =
      (if c = 'N' then some (.null, cs')
      else if c = 'T' then some (.bool true, cs')
      else if c = 'F' then some (.bool false, cs')
      else if c = '#' then (decInt cs').map (fun p => (Json.num p.1, p.2))
      else if c = '$' then
        (decNat cs').bind (fun p => (takeN p.1 p.2).map (fun q => (Json.str ⟨q.1⟩, q.2)))
      else if c = '[' then (decArr fuel cs').map (fun p => (Json.arr p.1, p.2))
      else if c = '{' then (decObj fuel cs').map (fun p => (Json.obj p.1, p.2))
      else none) := rfl

theorem decArr_cons (fuel : Nat) (c : Char) (cs' : List Char) :
    decArr (fuel + 1) (c :: cs') =
      (if c = ']' then some (.nil, cs')
      else (decJson fuel (c :: cs')).bind (fun p =>
        (decArr fuel p.2).map (fun q => (JsonArr.cons p.1 q.1, q.2)))) := rfl

theorem decObj_cons (fuel : Nat) (c : Char) (cs' : List Char) :
    decObj (fuel + 1) (c :: cs') =
      (if c = '}' then some (.nil, cs')
      else if c = '$' then
        (decNat cs').bind (fun p => (takeN p.1 p.2).bind (fun q =>
          (decJson fuel q.2).bind (fun r =>
            (decObj fuel r.2).map (fun w => (JsonObj.cons ⟨q.1⟩ r.1 w.1, w.2)))))
      else none) := rfl

theorem takeN_string (s : String) (rest : List Char) :
    takeN s.length (s.data ++ rest) = some (s.data, rest) :=
  takeN_append s.data rest

theorem dec_enc (fuel : Nat) :
    (∀ j rest, needJ j ≤ fuel → decJson fuel (encJson j ++ rest) = some (j, rest)) ∧
    (∀ xs rest, needA xs ≤ fuel → decArr fuel (encArr xs ++ ']' :: rest) = some (xs, rest)) ∧
    (∀ kvs rest, needO kvs ≤ fuel → decObj fuel (encObj kvs ++ '}' :: rest) = some (kvs, rest)) := by
  induction fuel with
  | zero =>
    refine ⟨fun j rest h => absurd h (by have := needJ_pos j; omega),
            fun xs rest h => absurd h (by have := needA_pos xs; omega),
            fun kvs rest h => absurd h (by have := needO_pos kvs; omega)⟩
  | succ fuel ih =>
    obtain ⟨ihJ, ihA, ihO⟩ := ih
    refine ⟨?_, ?_, ?_⟩
    · intro j rest h
      cases j with
      | null =>
        rw [encJson_null, List.singleton_append, decJson_cons]
        simp
      | bool b =>
        cases b
        · rw [encJson_false, List.singleton_append, decJson_cons]
          simp
        · rw [encJson_true, List.singleton_append, decJson_cons]
          simp
      | num n =>
        rw [encJson_num]
        simp only [List.cons_append, List.append_assoc, List.singleton_append]
        rw [decJson_cons]
        simp [decInt_encInt]
      | str s =>
        rw [encJson_str]
        simp only [List.cons_append, List.append_assoc]
        rw [decJson_cons]
        simp [decNat_encNat, takeN_string]
      | arr xs =>
        have hle : needA xs ≤ fuel := by simp [needJ] at h; omega
        rw [encJson_arr]
        simp only [List.cons_append, List.append_assoc, List.singleton_append]
        rw [decJson_cons]
        simp [ihA xs rest hle]
      | obj kvs =>
        have hle : needO kvs ≤ fuel := by simp [needJ] at h; omega
        rw [encJson_obj]
        simp only [List.cons_append, List.append_assoc, List.singleton_append]
        rw [decJson_cons]
        simp [ihO kvs rest hle]
    · intro xs rest h
      cases xs with
      | nil =>
        rw [encArr_nil, List.nil_append, decArr_cons]
        simp
      | cons j tl =>
        have hj : needJ j ≤ fuel := by
          have := needA_pos tl; simp [needA] at h; omega
        have htl : needA tl ≤ fuel := by
          have := needJ_pos j; simp [needA] at h; omega
        obtain ⟨c, cs, hEnc, hc1, _⟩ := encJson_shape j
        rw [encArr_cons, List.append_assoc, hEnc, List.cons_append, decArr_cons,
          if_neg hc1, ← List.cons_append, ← hEnc, ihJ j _ hj]
        simp [ihA tl rest htl]
    · intro kvs rest h
      cases kvs with
      | nil =>
        rw [encObj_nil, List.nil_append, decObj_cons]
        simp
      | cons k v tl =>
        have hv : needJ v ≤ fuel := by
          have := needO_pos tl; simp [needO] at h; omega
        have htl : needO tl ≤ fuel := by
          have := needJ_pos v; simp [needO] at h; omega
        rw [encObj_cons]
        simp only [List.cons_append, List.append_assoc]
        rw [decObj_cons]
        simp [decNat_encNat, takeN_string, ihJ v _ hv, ihO tl rest htl]

mutual

theorem needJ_le_enc : (j : Json) → needJ j ≤ 2 * (encJson j).length
  | .null => by simp [needJ, encJson_null]
  | .bool b => by cases b <;> simp [needJ, encJson_true, encJson_false]
  | .num n => by simp [needJ, encJson_num]; omega
  | .str s => by simp [needJ, encJson_str]; omega
  | .arr xs => by
    have := needA_le_enc xs
    simp [needJ, encJson_arr]
    omega
  | .obj kvs => by
    have := needO_le_enc kvs
    simp [needJ, encJson_obj]
    omega

theorem needA_le_enc : (xs : JsonArr) → needA xs ≤ 2 * (encArr xs).length + 1
  | .nil => by simp [needA, encArr_nil]
  | .cons j tl => by
    have h1 := needJ_le_enc j
    have h2 := needA_le_enc tl
    simp [needA, encArr_cons]
    omega

theorem needO_le_enc : (kvs : JsonObj) → needO kvs ≤ 2 * (encObj kvs).length + 1
  | .nil => by simp [needO, encObj_nil]
  | .cons k v tl => by
    have h1 := needJ_le_enc v
    have h2 := needO_le_enc tl
    simp [needO, encObj_cons]
    omega

end

def Json.stringify (j : Json) : String := ⟨encJson j⟩

def Json.parse (s : String) : Option Json :=
  match decJson (2 * s.data.length) s.data with
  | some (j, []) => some j
  | _ => none

theorem Json.parse_stringify (j : Json) : Json.parse (Json.stringify j) = some j := by
  have hf : needJ j ≤ 2 * (encJson j).length := needJ_le_enc j
  have h := (dec_enc (2 * (encJson j).length)).1 j [] hf
  rw [List.append_nil] at h
  unfold Json.parse Json.stringify
  simp [h]

/-- A row of the `devices` table (`db.js`, `CREATE TABLE devices`): the
`config` column holds TEXT; `DATETIME` timestamps are abstract clock
ticks. -/
structure DeviceRow where
  id : Int
  name : String
  type : String
  status : String
  config : String
  created_at : Nat
  updated_at : Nat
deriving DecidableEq, Repr

/-- The store state: the `devices` table plus the AUTOINCREMENT counter
(`id INTEGER PRIMARY KEY AUTOINCREMENT` starts at 1 and never reuses
ids). -/
structure DB where
  rows : List DeviceRow
  nextId : Int
deriving DecidableEq, Repr

def DB.empty : DB := ⟨[], 1⟩

/-- The ways a store promise can reject: `reject(new Error('No valid
fields to update'))` in `updateDevice`, and `JSON.parse` throwing on
invalid stored config text during result formatting. -/
inductive DbError where
  | noFieldsToUpdate
  | jsonParseError
deriving DecidableEq, Repr

/-- A formatted device as returned by `getDeviceById`/`getAllDevices`:
the row spread with `config` deserialized (`{...row, config:
JSON.parse(row.config || '{}')}`). -/
structure Device where
  id : Int
  name : String
  type : String
  status : String
  config : Json
  created_at : Nat
  updated_at : Nat
deriving DecidableEq, Repr

/-- The object `createDevice` resolves with: `{id: this.lastID, name,
type, status, config: JSON.parse(config)}` — note it has no
`created_at`/`updated_at` fields. -/
structure CreatedDevice where
  id : Int
  name : String
  type : String
  status : String
  config : Json
deriving DecidableEq, Repr

/-- Argument object of `createDevice` (`db.js` line 111): `status`
defaults to `'offline'`, `config` defaults to the string `'{}'`. -/
structure CreateData where
  name : String
  type : String
  status : Option String
  config : Option String
deriving DecidableEq, Repr

/-- Translation of `db.js createDevice`: INSERT the row (`updated_at` set to
CURRENT_TIMESTAMP explicitly, `created_at` via column default — the same
statement, hence the same tick `t`), then build the result object with
`JSON.parse(config)`.  The row is inserted before the callback parses the
config text, so the insert survives even when that parse fails. -/
def createDevice (db : DB) (t : Nat) (d : CreateData) :
    Except DbError CreatedDevice × DB :=
  let status := d.status.getD "offline"
  let config := d.config.getD "{}"
  let row : DeviceRow :=
    { id := db.nextId, name := d.name, type := d.type, status := status,
      config := config, created_at := t, updated_at := t }
  let db' : DB := { rows := db.rows ++ [row], nextId := db.nextId + 1 }
  match Json.parse config with
  | some j =>
    (.ok { id := db.nextId, name := d.name, type := d.type, status := status,
           config := j }, db')
  | none => (.error .jsonParseError, db')

/-- The text actually fed to `JSON.parse` on reads: `row.config || '{}'`
(an empty/absent text falls back to `'{}'`). -/
def rowConfigText (row : DeviceRow) : String :=
  if row.config = "" then "{}" else row.config

/-- Row formatting `{...row, config: JSON.parse(row.config || '{}')}`; a throwing
`JSON.parse` is the error outcome of the read operation (at the route
layer this throw escapes the sqlite3 callback uncaught — it does not
reject the promise). -/
def formatDeviceRow (row : DeviceRow) : Except DbError Device :=
  match Json.parse (rowConfigText row) with
  | some j =>
    .ok { id := row.id, name := row.name, type := row.type,
          status := row.status, config := j, created_at := row.created_at,
          updated_at := row.updated_at }
  | none => .error .jsonParseError

def formatRows : List DeviceRow → Except DbError (List Device)
  | [] => .ok []
  | r :: rs =>
    match formatDeviceRow r, formatRows rs with
    | .ok d, .ok ds => .ok (d :: ds)
    | .error e, _ => .error e
    | .ok _, .error e => .error e

/-- Ordering `ORDER BY created_at DESC`: larger `created_at` first.  SQL leaves
the order of ties unspecified; the model picks one allowed order. -/
def createdDesc (a b : DeviceRow) : Prop := b.created_at ≤ a.created_at

instance : DecidableRel createdDesc := fun a b => Nat.decLe b.created_at a.created_at

/-- Translation of `db.js getAllDevices`: `SELECT * FROM devices ORDER BY created_at
DESC`, each row formatted. -/
def getAllDevices (db : DB) : Except DbError (List Device) :=
  formatRows (List.insertionSort createdDesc db.rows)

/-- Translation of `db.js getDeviceById`: `SELECT * FROM devices WHERE id = ?`; no row
resolves `null`, a row is formatted. -/
def getDeviceById (db : DB) (id : Int) : Except DbError (Option Device) :=
  match db.rows.find? (fun row => row.id == id) with
  | none => .ok none
  | some row => (formatDeviceRow row).map some

/-- A JavaScript value passed as `config` to the store: either already a
string or any other value (the routes pass the validated object). -/
inductive ConfigArg where
  | str (s : String)
  | js (j : Json)
deriving DecidableEq, Repr

/-- The ternary `typeof config === 'string' ? config : JSON.stringify(config)`
(`db.js` line 181 / `_ensureStringConfig`). -/
def ensureStringConfig : ConfigArg → String
  | .str s => s
  | .js j => Json.stringify j

/-- Argument object of `updateDevice`: both fields optional. -/
structure UpdateData where
  status : Option String
  config : Option ConfigArg
deriving DecidableEq, Repr

/-- The effect of the built `UPDATE devices SET ... , updated_at =
CURRENT_TIMESTAMP WHERE id = ?` on a matched row. -/
def applyUpdate (u : UpdateData) (t : Nat) (row : DeviceRow) : DeviceRow :=
  { row with
    status := u.status.getD row.status,
    config := match u.config with
      | some c => ensureStringConfig c
      | none => row.config,
    updated_at := t }

/-- Translation of `db.js updateDevice`: collect SET clauses from the supplied fields;
reject `'No valid fields to update'` when neither is supplied; run the
UPDATE; `this.changes === 0` resolves `null`, otherwise `true`. -/
def updateDevice (db : DB) (t : Nat) (id : Int) (u : UpdateData) :
    Except DbError (Option Bool × DB) :=
  if u.status = none ∧ u.config = none then .error .noFieldsToUpdate
  else if (db.rows.filter (fun row => row.id == id)).length = 0 then
    .ok (none, { db with rows := db.rows.map (fun row => if row.id == id then applyUpdate u t row else row) })
  else
    .ok (some true, { db with rows := db.rows.map (fun row => if row.id == id then applyUpdate u t row else row) })

/-- Translation of `db.js deleteDevice`: `DELETE FROM devices WHERE id = ?`; resolves
`this.changes > 0`. -/
def deleteDevice (db : DB) (id : Int) : Bool × DB :=
  ((db.rows.filter (fun row => row.id == id)).length != 0,
   { db with rows := db.rows.filter (fun row => row.id != id) })

/-- Invariant of every reachable store state: all row ids are below the
AUTOINCREMENT counter. -/
def DB.Inv (db : DB) : Prop := ∀ row ∈ db.rows, row.id < db.nextId

/-- Config well-formedness of a store state: every row's stored config
text deserializes (so reads cannot hit the `JSON.parse` error). -/
def DB.ConfigsWF (db : DB) : Prop :=
  ∀ row ∈ db.rows, (Json.parse (rowConfigText row)).isSome

/-- JavaScript whitespace accepted by `parseInt` before the number. -/
def isJsWS (c : Char) : Bool := c == ' ' || c == '\t' || c == '\n' || c == '\r'

def decVal (c : Char) : Option Nat :=
  if '0' ≤ c ∧ c ≤ '9' then some (c.toNat - 48) else none

def hexVal (c : Char) : Option Nat :=
  if '0' ≤ c ∧ c ≤ '9' then some (c.toNat - 48)
  else if 'a' ≤ c ∧ c ≤ 'f' then some (c.toNat - 87)
  else if 'A' ≤ c ∧ c ≤ 'F' then some (c.toNat - 55)
  else none

/-- Accumulate the longest digit prefix. -/
def takeDigits (f : Char → Option Nat) (base : Nat) : Nat → List Char → Nat
  | acc, [] => acc
  | acc, c :: cs =>
    match f c with
    | some d => takeDigits f base (base * acc + d) cs
    | none => acc

/-- Result is `NaN` (`none`) unless at least one digit is present. -/
def leadingDigits (f : Char → Option Nat) (base : Nat) : List Char → Option Nat
  | [] => none
  | c :: cs =>
    match f c with
    | some d => some (takeDigits f base d cs)
    | none => none

/-- JavaScript `parseInt(s)` (radix argument omitted): skip leading
whitespace, optional sign, a `0x`/`0X` prefix switches to hexadecimal,
then the longest digit prefix; `none` models `NaN`. -/
def jsParseInt (s : String) : Option Int :=
  let cs := s.data.dropWhile isJsWS
  let signed : Bool × List Char :=
    match cs with
    | '-' :: r => (true, r)
    | '+' :: r => (false, r)
    | r => (false, r)
  let based : Nat × List Char :=
    match signed.2 with
    | '0' :: 'x' :: r => (16, r)
    | '0' :: 'X' :: r => (16, r)
    | r => (10, r)
  match leadingDigits (if based.1 = 16 then hexVal else decVal) based.1 based.2 with
  | none => none
  | some n => some (if signed.1 then -(n : Int) else (n : Int))

/-- The store operations a handler performed, in order. -/
inductive StoreOp where
  | createOp
  | listOp
  | getByIdOp (id : Int)
  | updateOp (id : Int)
  | deleteOp (id : Int)
deriving DecidableEq, Repr

/-- The summary view built by `GET /devices`: the six listed fields and
no `config`. -/
structure DeviceSummary where
  id : Int
  name : String
  type : String
  status : String
  created_at : Nat
  updated_at : Nat
deriving DecidableEq, Repr

def summaryOf (d : Device) : DeviceSummary :=
  { id := d.id, name := d.name, type := d.type, status := d.status,
    created_at := d.created_at, updated_at := d.updated_at }

/-- The possible outcomes of a device-router request.  All but the last
are response bodies.  `noResponse` is the outcome of a `JSON.parse` throw
inside a sqlite3 callback: the throw happens after the `Promise` executor
has returned, so it never rejects the promise — the handler's
`try/catch` (the 500 path) is not reached and no HTTP response is
produced; the exception escapes the callback uncaught. -/
inductive Resp where
  | created (device : CreatedDevice)
  | okDevice (message : String) (device : Option Device)
  | okList (count : Nat) (devices : List DeviceSummary)
  | okDeleted (id : Int) (name : String) (type : String)
  | validationFailed (details : String)
  | invalidId
  | notFound (id : Int)
  | serverError (message : String)
  | noResponse
deriving DecidableEq, Repr

/-- HTTP status of each response; `noResponse` sends no status at all —
the 0 here is a sentinel, not an HTTP status. -/
def Resp.status : Resp → Nat
  | .created _ => 201
  | .okDevice _ _ => 200
  | .okList _ _ => 200
  | .okDeleted _ _ _ => 200
  | .validationFailed _ => 400
  | .invalidId => 400
  | .notFound _ => 404
  | .serverError _ => 500
  | .noResponse => 0

/-- The `message` field of the response envelope, where present. -/
def Resp.message : Resp → Option String
  | .created _ => some "Device registered successfully"
  | .okDevice m _ => some m
  | .okList _ _ => some "Devices retrieved successfully"
  | .okDeleted _ _ _ => some "Device deleted successfully"
  | .validationFailed _ => none
  | .invalidId => some "Device ID must be a positive integer"
  | .notFound i => some ("Device with ID " ++ toString i ++ " does not exist")
  | .serverError m => some m
  | .noResponse => none

/-- Whether an outcome is the 200 list response. -/
def Resp.isOkList : Resp → Bool
  | .okList _ _ => true
  | _ => false

structure RouteResult where
  resp : Resp
  db : DB
  ops : List StoreOp
deriving Repr

def typeEnum : List String :=
  ["light", "thermostat", "camera", "sensor", "switch", "speaker", "lock", "other"]

def statusEnum : List String := ["on", "off", "online", "offline", "idle"]

/-- A request body field set: each schema key either absent or some JSON
value. -/
structure CreateBody where
  name : Option Json
  type : Option Json
  status : Option Json
  config : Option Json
deriving DecidableEq, Repr

/-- The value produced by a successful `deviceSchema.validate`; a config,
when present, is known to be an object. -/
structure CreateValue where
  name : String
  type : String
  status : Option String
  config : Option JsonObj
deriving DecidableEq, Repr

/-- Rule `Joi.string().min(1).max(100).required()` for `name`. -/
def validateName : Option Json → Except String String
  | none => .error "\x22name\x22 is required"
  | some (.str s) =>
    if s.length < 1 then .error "\x22name\x22 is not allowed to be empty"
    else if 100 < s.length then
      .error "\x22name\x22 length must be less than or equal to 100 characters long"
    else .ok s
  | some _ => .error "\x22name\x22 must be a string"

/-- Rule `Joi.string().valid(...eight types...).required()` for `type`. -/
def validateType : Option Json → Except String String
  | none => .error "\x22type\x22 is required"
  | some (.str s) =>
    if typeEnum.contains s then .ok s
    else .error "\x22type\x22 must be one of the allowed device types"
  | some _ => .error "\x22type\x22 must be a string"

/-- Rule `Joi.string().valid(...five statuses...).optional()`. -/
def validateStatusOpt : Option Json → Except String (Option String)
  | none => .ok none
  | some (.str s) =>
    if statusEnum.contains s then .ok (some s)
    else .error "\x22status\x22 must be one of the allowed statuses"
  | some _ => .error "\x22status\x22 must be a string"

/-- Rule `Joi.object().optional()` for `config`. -/
def validateConfigOpt : Option Json → Except String (Option JsonObj)
  | none => .ok none
  | some (.obj kvs) => .ok (some kvs)
  | some _ => .error "\x22config\x22 must be of type object"

/-- Validation `deviceSchema.validate(req.body)` (first-error-wins, schema key
order). -/
def validateCreate (b : CreateBody) : Except String CreateValue := do
  let name ← validateName b.name
  let ty ← validateType b.type
  let st ← validateStatusOpt b.status
  let cfg ← validateConfigOpt b.config
  .ok { name := name, type := ty, status := st, config := cfg }

structure UpdateBody where
  status : Option Json
  config : Option Json
deriving DecidableEq, Repr

structure UpdateValue where
  status : Option String
  config : Option JsonObj
deriving DecidableEq, Repr

/-- Validation `updateDeviceSchema.validate(req.body)`: both fields optional but
`.min(1)` rejects a body with neither key. -/
def validateUpdate (b : UpdateBody) : Except String UpdateValue :=
  if b.status = none ∧ b.config = none then
    .error "\x22value\x22 must have at least 1 key"
  else do
    let st ← validateStatusOpt b.status
    let cfg ← validateConfigOpt b.config
    .ok { status := st, config := cfg }

/-- Handler for `POST /devices`: validate; on success call `createDevice` with
`status: value.status || 'offline'` and `config:
JSON.stringify(value.config || {})`; 201 with the created record.  The
only failure `createDevice` can produce in the model is the `JSON.parse`
throw inside the `stmt.run` callback, which never rejects the promise —
that branch yields no response (the row is already inserted). -/
def routePost (db : DB) (t : Nat) (body : CreateBody) : RouteResult :=
  match validateCreate body with
  | .error msg => ⟨.validationFailed msg, db, []⟩
  | .ok v =>
    match createDevice db t
      { name := v.name, type := v.type,
        status := some (v.status.getD "offline"),
        config := some (Json.stringify (.obj (v.config.getD .nil))) } with
    | (.ok d, db') => ⟨.created d, db', [.createOp]⟩
    | (.error _, db') => ⟨.noResponse, db', [.createOp]⟩

/-- Handler for `GET /devices`: list all, map to the summary view, 200 with count and
array.  A `JSON.parse` throw on a stored config happens inside the
`db.all` callback, so it never rejects the promise: the handler's catch
(500) is unreachable from it and no response is produced. -/
def routeList (db : DB) : RouteResult :=
  match getAllDevices db with
  | .error _ => ⟨.noResponse, db, [.listOp]⟩
  | .ok devices =>
    ⟨.okList devices.length (devices.map summaryOf), db, [.listOp]⟩

/-- Handler for `GET /devices/:id`: `parseInt` the segment, reject NaN or ≤ 0 with
400 before any store call; 404 when no row matches; else 200 with the
full record.  A `JSON.parse` throw on the stored config (inside the
`db.get` callback) never rejects the promise, so that branch produces no
response. -/
def routeGetById (db : DB) (seg : String) : RouteResult :=
  match jsParseInt seg with
  | none => ⟨.invalidId, db, []⟩
  | some deviceId =>
    if deviceId ≤ 0 then ⟨.invalidId, db, []⟩
    else
      match getDeviceById db deviceId with
      | .error _ => ⟨.noResponse, db, [.getByIdOp deviceId]⟩
      | .ok none => ⟨.notFound deviceId, db, [.getByIdOp deviceId]⟩
      | .ok (some d) =>
        ⟨.okDevice "Device retrieved successfully" (some d), db, [.getByIdOp deviceId]⟩

/-- Handler for `PUT /devices/:id`: id check (400), body validation (400), existence
pre-check (404), `updateDevice` (404 when it reports no matched row),
then re-fetch and 200 with whatever the re-fetch returned.
`updateDevice` fails only through an explicit `reject(...)`, a genuine
promise rejection the handler catches as 500; the two `getDeviceById`
calls fail only through the `JSON.parse` throw inside the `db.get`
callback, which never rejects the promise and so produces no
response. -/
def routePut (db : DB) (t : Nat) (seg : String) (body : UpdateBody) : RouteResult :=
  match jsParseInt seg with
  | none => ⟨.invalidId, db, []⟩
  | some deviceId =>
    if deviceId ≤ 0 then ⟨.invalidId, db, []⟩
    else
      match validateUpdate body with
      | .error msg => ⟨.validationFailed msg, db, []⟩
      | .ok v =>
        match getDeviceById db deviceId with
        | .error _ => ⟨.noResponse, db, [.getByIdOp deviceId]⟩
        | .ok none => ⟨.notFound deviceId, db, [.getByIdOp deviceId]⟩
        | .ok (some _) =>
          match updateDevice db t deviceId
            { status := v.status,
              config := v.config.map (fun kvs => ConfigArg.js (.obj kvs)) } with
          | .error _ =>
            ⟨.serverError "Failed to update device", db,
              [.getByIdOp deviceId, .updateOp deviceId]⟩
          | .ok (none, db') =>
            ⟨.notFound deviceId, db', [.getByIdOp deviceId, .updateOp deviceId]⟩
          | .ok (some _, db') =>
            match getDeviceById db' deviceId with
            | .error _ =>
              ⟨.noResponse, db',
                [.getByIdOp deviceId, .updateOp deviceId, .getByIdOp deviceId]⟩
            | .ok dOpt =>
              ⟨.okDevice "Device updated successfully" dOpt, db',
                [.getByIdOp deviceId, .updateOp deviceId, .getByIdOp deviceId]⟩

/-- Handler for `DELETE /devices/:id`: id check (400), existence pre-check (404),
`deleteDevice`, then 200 with `{id, name, type}` of what was deleted, or
404 if the delete affected nothing.  The pre-check's `JSON.parse` throw
(inside the `db.get` callback) never rejects the promise, so that branch
produces no response. -/
def routeDelete (db : DB) (seg : String) : RouteResult :=
  match jsParseInt seg with
  | none => ⟨.invalidId, db, []⟩
  | some deviceId =>
    if deviceId ≤ 0 then ⟨.invalidId, db, []⟩
    else
      match getDeviceById db deviceId with
      | .error _ => ⟨.noResponse, db, [.getByIdOp deviceId]⟩
      | .ok none => ⟨.notFound deviceId, db, [.getByIdOp deviceId]⟩
      | .ok (some existing) =>
        match deleteDevice db deviceId with
        | (deleted, db') =>
          if deleted then
            ⟨.okDeleted existing.id existing.name existing.type, db',
              [.getByIdOp deviceId, .deleteOp deviceId]⟩
          else
            ⟨.notFound deviceId, db', [.getByIdOp deviceId, .deleteOp deviceId]⟩

def jsonObjLookup : JsonObj → String → Option Json
  | .nil, _ => none
  | .cons k v tl, key => if k = key then some v else jsonObjLookup tl key

/-- Field access on a rendered JSON object (for stating which keys a
response body carries). -/
def Json.getField : Json → String → Option Json
  | .obj kvs, key => jsonObjLookup kvs key
  | _, _ => none

/-- The JSON body of the `device` value in a 201 create response —
exactly the keys of the object `createDevice` resolves with. -/
def CreatedDevice.toJson (d : CreatedDevice) : Json :=
  .obj (.cons "id" (.num d.id) (.cons "name" (.str d.name)
    (.cons "type" (.str d.type) (.cons "status" (.str d.status)
    (.cons "config" d.config .nil)))))

/-- The JSON body of a full device record (row spread plus parsed
config). -/
def Device.toJson (d : Device) : Json :=
  .obj (.cons "id" (.num d.id) (.cons "name" (.str d.name)
    (.cons "type" (.str d.type) (.cons "status" (.str d.status)
    (.cons "config" d.config (.cons "created_at" (.num d.created_at)
    (.cons "updated_at" (.num d.updated_at) .nil)))))))

/-- The JSON body of one summary entry in the `GET /devices` response. -/
def DeviceSummary.toJson (d : DeviceSummary) : Json :=
  .obj (.cons "id" (.num d.id) (.cons "name" (.str d.name)
    (.cons "type" (.str d.type) (.cons "status" (.str d.status)
    (.cons "created_at" (.num d.created_at)
    (.cons "updated_at" (.num d.updated_at) .nil))))))

deriving instance DecidableEq for Except

deriving instance DecidableEq for RouteResult

theorem Json.parse_empty : Json.parse "" = none := rfl

theorem Json.stringify_data (j : Json) : (Json.stringify j).data = encJson j := rfl

theorem Json.stringify_ne_empty (j : Json) : Json.stringify j ≠ "" := by
  obtain ⟨c, cs, hEnc, -, -⟩ := encJson_shape j
  intro h
  have hdata : (Json.stringify j).data = ([] : List Char) := by rw [h]
  rw [Json.stringify_data, hEnc] at hdata
  cases hdata

theorem rowConfigText_eq (row : DeviceRow) (h : row.config ≠ "") :
    rowConfigText row = row.config := if_neg h

/-- A successful `updateDevice` leaves `nextId` alone and rewrites exactly
the matching rows through `applyUpdate`. -/
theorem updateDevice_ok (db : DB) (t : Nat) (id : Int) (u : UpdateData)
    (r : Option Bool) (db' : DB) (h : updateDevice db t id u = .ok (r, db')) :
    db'.nextId = db.nextId ∧
    db'.rows = db.rows.map
      (fun row => if row.id == id then applyUpdate u t row else row) := by
  unfold updateDevice at h
  by_cases hc : u.status = none ∧ u.config = none
  · rw [if_pos hc] at h
    cases h
  · rw [if_neg hc] at h
    by_cases hz : (db.rows.filter (fun row => row.id == id)).length = 0
    · rw [if_pos hz] at h
      cases h
      exact ⟨rfl, rfl⟩
    · rw [if_neg hz] at h
      cases h
      exact ⟨rfl, rfl⟩

theorem formatDeviceRow_ok (row : DeviceRow) (d : Device)
    (h : formatDeviceRow row = .ok d) :
    d.id = row.id ∧ d.name = row.name ∧ d.type = row.type ∧
    d.status = row.status ∧ d.created_at = row.created_at ∧
    d.updated_at = row.updated_at ∧
    Json.parse (rowConfigText row) = some d.config := by
  unfold formatDeviceRow at h
  split at h
  · next j hj => cases h; exact ⟨rfl, rfl, rfl, rfl, rfl, rfl, hj⟩
  · cases h

theorem getDeviceById_ok_some (db : DB) (id : Int) (d : Device)
    (h : getDeviceById db id = .ok (some d)) :
    ∃ row, db.rows.find? (fun row => row.id == id) = some row ∧
      formatDeviceRow row = .ok d := by
  unfold getDeviceById at h
  split at h
  · simp at h
  · next row hrow =>
    cases hfmt : formatDeviceRow row with
    | ok d' =>
      rw [hfmt] at h
      simp [Except.map] at h
      exact ⟨row, hrow, by rw [hfmt, h]⟩
    | error e =>
      rw [hfmt] at h
      simp [Except.map] at h

/-- Fixture: `createDevice` on the empty store at tick 5. -/
def sampleCreate : CreateData :=
  { name := "Living Room Light", type := "light", status := some "on", config := none }

def exRow : DeviceRow :=
  { id := 1, name := "Living Room Light", type := "light", status := "on",
    config := "{}", created_at := 5, updated_at := 5 }

def exDB : DB := ⟨[exRow], 2⟩

def exUpd : UpdateData := { status := some "off", config := none }

def exRowUpd : DeviceRow :=
  { id := 1, name := "Living Room Light", type := "light", status := "off",
    config := "{}", created_at := 5, updated_at := 5 }

def exDBUpd : DB := ⟨[exRowUpd], 2⟩

def exRowUpd7 : DeviceRow :=
  { id := 1, name := "Living Room Light", type := "light", status := "off",
    config := "{}", created_at := 5, updated_at := 7 }

def exDBUpd7 : DB := ⟨[exRowUpd7], 2⟩

/-- C1 (amended): a successful update (via `Store.update`, and hence via
`PUT /devices/:id`) rewrites every matched row with `updated_at` set to
the operation's current timestamp `t`; the new value is strictly later
than the prior one whenever `t` is strictly later (i.e. whenever the
clock advanced since the record was last written), and a device returned
by a 200 `PUT` response carries `updated_at = t`. -/
theorem C1_updated_at_refreshed :
    (∀ db t id u r db', updateDevice db t id u = .ok (r, db') →
      db'.rows = db.rows.map
        (fun row => if row.id == id then applyUpdate u t row else row)) ∧
    (∀ u t row, (applyUpdate u t row).updated_at = t) ∧
    (∀ u t row, row.updated_at < t →
      row.updated_at < (applyUpdate u t row).updated_at) ∧
    (∀ db t seg body m d, (routePut db t seg body).resp = .okDevice m (some d) →
      d.updated_at = t) := by
  refine ⟨?_, fun u t row => rfl, fun u t row h => h, ?_⟩
  · intro db t id u r db' h
    exact (updateDevice_ok db t id u r db' h).2
  · intro db t seg body m d h
    unfold routePut at h
    split at h
    · cases h
    · next deviceId _ =>
      split at h
      · cases h
      · split at h
        · cases h
        · split at h
          · cases h
          · cases h
          · next hupd0 =>
            split at h
            · cases h
            · cases h
            · next r db' hupd =>
              split at h
              · cases h
              · next dOpt hget =>
                cases h
                next hdev =>
                obtain ⟨row0, hfind, hfmt⟩ := getDeviceById_ok_some db' deviceId d hget
                have hrows := (updateDevice_ok db t deviceId _ r db' hupd).2
                have hpred := List.find?_some hfind
                have hmem := List.mem_of_find?_eq_some hfind
                rw [hrows] at hmem
                obtain ⟨orig, _, horig⟩ := List.mem_map.mp hmem
                have hupdated : row0.updated_at = t := by
                  by_cases hid : (orig.id == deviceId) = true
                  · rw [if_pos hid] at horig
                    rw [← horig]
                    rfl
                  · rw [if_neg hid] at horig
                    rw [← horig] at hpred
                    exact absurd hpred (by simp [hid])
                have := (formatDeviceRow_ok row0 d hfmt).2.2.2.2.2.1
                omega

/-- C1 counterexample: `exDB` is the state `createDevice` produces at
tick 5; updating it at the same tick 5 succeeds but leaves `updated_at`
at 5 — not strictly later than the prior value. -/
theorem C1_counterexample :
    (createDevice DB.empty 5 sampleCreate).2 = exDB ∧
    exDB.rows = [exRow] ∧
    updateDevice exDB 5 1 exUpd = .ok (some true, exDBUpd) ∧
    exDBUpd.rows = [exRowUpd] ∧
    exRow.updated_at = 5 ∧ exRowUpd.updated_at = 5 ∧
    ¬ exRow.updated_at < exRowUpd.updated_at := by decide

/-- C1 witness: the same update performed at tick 7 strictly advances
`updated_at` from 5 to 7. -/
theorem C1_witness :
    exDBUpd7.rows = exDB.rows.map
      (fun row => if row.id == (1 : Int) then applyUpdate exUpd 7 row else row) ∧
    (applyUpdate exUpd 7 exRow).updated_at = 7 ∧
    exRow.updated_at < (applyUpdate exUpd 7 exRow).updated_at := by
  have h := C1_updated_at_refreshed
  exact ⟨h.1 exDB 7 1 exUpd (some true) exDBUpd7 (by decide),
    h.2.1 exUpd 7 exRow, h.2.2.1 exUpd 7 exRow (by decide)⟩

/-- C5: a successful update changes only the supplied fields among
{status, config} plus `updated_at` on the matched row; `id`, `name`,
`type`, `created_at` are untouched, a field not supplied keeps its value
(update-only-status leaves `config` unchanged and vice versa), and every
row with a different id is unchanged (still present as-is); `nextId` is
unchanged too. -/
theorem C5_update_frame (db : DB) (t : Nat) (id : Int) (u : UpdateData)
    (r : Option Bool) (db' : DB) (h : updateDevice db t id u = .ok (r, db')) :
    db'.nextId = db.nextId ∧
    db'.rows = db.rows.map
      (fun row => if row.id == id then applyUpdate u t row else row) ∧
    (∀ row, (applyUpdate u t row).id = row.id) ∧
    (∀ row, (applyUpdate u t row).name = row.name) ∧
    (∀ row, (applyUpdate u t row).type = row.type) ∧
    (∀ row, (applyUpdate u t row).created_at = row.created_at) ∧
    (∀ row, u.status = none → (applyUpdate u t row).status = row.status) ∧
    (∀ row s, u.status = some s → (applyUpdate u t row).status = s) ∧
    (∀ row, u.config = none → (applyUpdate u t row).config = row.config) ∧
    (∀ row c, u.config = some c → (applyUpdate u t row).config = ensureStringConfig c) ∧
    (∀ row ∈ db.rows, row.id ≠ id → row ∈ db'.rows) := by
  obtain ⟨hnext, hrows⟩ := updateDevice_ok db t id u r db' h
  refine ⟨hnext, hrows, fun row => rfl, fun row => rfl, fun row => rfl, fun row => rfl,
    ?_, ?_, ?_, ?_, ?_⟩
  · intro row hs
    simp [applyUpdate, hs]
  · intro row s hs
    simp [applyUpdate, hs]
  · intro row hc
    simp [applyUpdate, hc]
  · intro row c hc
    simp [applyUpdate, hc]
  · intro row hmem hne
    rw [hrows]
    exact List.mem_map.mpr ⟨row, hmem, by simp [hne]⟩

/-- C5 witness: updating only the status of the single row of `exDB`
keeps `nextId`, `name` and the stored `config` text unchanged. -/
theorem C5_witness :
    exDBUpd7.nextId = exDB.nextId ∧
    (applyUpdate exUpd 7 exRow).name = exRow.name ∧
    (applyUpdate exUpd 7 exRow).config = exRow.config := by
  obtain ⟨h1, h2, h3, h4, h5, h6, h7, h8, h9, h10, h11⟩ :=
    C5_update_frame exDB 7 1 exUpd (some true) exDBUpd7 (by decide)
  exact ⟨h1, h4 exRow, h9 exRow rfl⟩

/-- C8: an update must supply at least one of status/config —
`Store.update` with both fields absent fails with the
`'No valid fields to update'` error (and, by its type, produces no new
store state), and a `PUT` whose body has neither field is answered 400
with the store untouched and no store operation performed. -/
theorem C8_empty_update_rejected :
    (∀ db t id u, u.status = none → u.config = none →
      updateDevice db t id u = .error .noFieldsToUpdate) ∧
    (∀ db t seg,
      (routePut db t seg { status := none, config := none }).resp.status = 400 ∧
      (routePut db t seg { status := none, config := none }).db = db ∧
      (routePut db t seg { status := none, config := none }).ops = []) := by
  constructor
  · intro db t id u hs hc
    unfold updateDevice
    rw [if_pos ⟨hs, hc⟩]
  · intro db t seg
    unfold routePut
    cases hp : jsParseInt seg with
    | none => exact ⟨rfl, rfl, rfl⟩
    | some deviceId =>
      dsimp only
      by_cases hle : deviceId ≤ 0
      · rw [if_pos hle]
        exact ⟨rfl, rfl, rfl⟩
      · rw [if_neg hle]
        exact ⟨rfl, rfl, rfl⟩

/-- C8 witness: concrete empty-body update against `exDB`. -/
theorem C8_witness :
    updateDevice exDB 9 1 { status := none, config := none } =
      .error .noFieldsToUpdate ∧
    (routePut exDB 9 "1" { status := none, config := none }).resp.status = 400 ∧
    (routePut exDB 9 "1" { status := none, config := none }).db = exDB ∧
    (routePut exDB 9 "1" { status := none, config := none }).ops = [] := by
  have h := C8_empty_update_rejected
  exact ⟨h.1 exDB 9 1 _ rfl rfl, (h.2 exDB 9 "1").1, (h.2 exDB 9 "1").2.1,
    (h.2 exDB 9 "1").2.2⟩

/-- The exact condition on which the handlers short-circuit with 400:
`isNaN(parseInt(seg)) || parseInt(seg) <= 0`. -/
def idSegmentRejected (seg : String) : Bool :=
  match jsParseInt seg with
  | none => true
  | some n => decide (n ≤ 0)

/-- C2 (amended): GET/PUT/DELETE `/devices/:id` answer 400
(`'Device ID must be a positive integer'`) with no store operation
exactly when `parseInt` of the segment is NaN or ≤ 0; conversely a
request reaches the store only when `parseInt` yields a positive value —
but `parseInt` takes the longest leading integer prefix, so segments that
are not positive integers (e.g. `"12abc"`, `"3.5"`) can still reach the
store. -/
theorem C2_id_guard :
    (∀ db seg, idSegmentRejected seg = true →
      routeGetById db seg = ⟨.invalidId, db, []⟩) ∧
    (∀ db t seg body, idSegmentRejected seg = true →
      routePut db t seg body = ⟨.invalidId, db, []⟩) ∧
    (∀ db seg, idSegmentRejected seg = true →
      routeDelete db seg = ⟨.invalidId, db, []⟩) ∧
    Resp.status .invalidId = 400 ∧
    Resp.message .invalidId = some "Device ID must be a positive integer" ∧
    (∀ db seg, (routeGetById db seg).ops ≠ [] → idSegmentRejected seg = false) ∧
    (∀ db t seg body, (routePut db t seg body).ops ≠ [] →
      idSegmentRejected seg = false) ∧
    (∀ db seg, (routeDelete db seg).ops ≠ [] → idSegmentRejected seg = false) := by
  have hGet : ∀ db seg, idSegmentRejected seg = true →
      routeGetById db seg = ⟨.invalidId, db, []⟩ := by
    intro db seg hrej
    unfold idSegmentRejected at hrej
    unfold routeGetById
    cases hp : jsParseInt seg with
    | none => rfl
    | some n =>
      rw [hp] at hrej
      dsimp only
      rw [if_pos (of_decide_eq_true hrej)]
  have hPut : ∀ db t seg body, idSegmentRejected seg = true →
      routePut db t seg body = ⟨.invalidId, db, []⟩ := by
    intro db t seg body hrej
    unfold idSegmentRejected at hrej
    unfold routePut
    cases hp : jsParseInt seg with
    | none => rfl
    | some n =>
      rw [hp] at hrej
      dsimp only
      rw [if_pos (of_decide_eq_true hrej)]
  have hDel : ∀ db seg, idSegmentRejected seg = true →
      routeDelete db seg = ⟨.invalidId, db, []⟩ := by
    intro db seg hrej
    unfold idSegmentRejected at hrej
    unfold routeDelete
    cases hp : jsParseInt seg with
    | none => rfl
    | some n =>
      rw [hp] at hrej
      dsimp only
      rw [if_pos (of_decide_eq_true hrej)]
  refine ⟨hGet, hPut, hDel, rfl, rfl, ?_, ?_, ?_⟩
  · intro db seg hops
    cases hrej : idSegmentRejected seg with
    | false => rfl
    | true => exact absurd (by rw [hGet db seg hrej]) hops
  · intro db t seg body hops
    cases hrej : idSegmentRejected seg with
    | false => rfl
    | true => exact absurd (by rw [hPut db t seg body hrej]) hops
  · intro db seg hops
    cases hrej : idSegmentRejected seg with
    | false => rfl
    | true => exact absurd (by rw [hDel db seg hrej]) hops

def exRow12 : DeviceRow :=
  { id := 12, name := "Security Camera", type := "camera", status := "online",
    config := "{}", created_at := 3, updated_at := 3 }

def exDB12 : DB := ⟨[exRow12], 13⟩

/-- C2 counterexample: the segment `"12abc"` does not denote a positive
integer, yet `parseInt` extracts 12, the handler calls the store and
answers 200 rather than 400. -/
theorem C2_counterexample :
    jsParseInt "12abc" = some 12 ∧
    (routeGetById exDB12 "12abc").resp.status = 200 ∧
    (routeGetById exDB12 "12abc").ops = [.getByIdOp 12] := by decide

/-- C2 witness: concrete rejected segments for all three handlers. -/
theorem C2_witness :
    routeGetById exDB "abc" = ⟨.invalidId, exDB, []⟩ ∧
    routePut exDB 4 "0" { status := none, config := none } = ⟨.invalidId, exDB, []⟩ ∧
    routeDelete exDB "-3" = ⟨.invalidId, exDB, []⟩ := by
  have h := C2_id_guard
  exact ⟨h.1 exDB "abc" (by decide), h.2.1 exDB 4 "0" _ (by decide),
    h.2.2.1 exDB "-3" (by decide)⟩

/-- C3 (amended): a successful `Store.create` appends exactly the new row
(store-assigned id, the given name/type, defaulted status/config text,
both timestamps set to the current tick) and returns — also as the 201
`device` — an object carrying the store-assigned `id`, `name`, `type`,
`status`, and the `config` deserialized back to an object; the returned
object does NOT carry the row's `created_at`/`updated_at` keys. -/
theorem C3_create_returns :
    (∀ db t d cd db', createDevice db t d = (.ok cd, db') →
      db'.rows = db.rows ++
        [{ id := db.nextId, name := d.name, type := d.type,
           status := d.status.getD "offline", config := d.config.getD "{}",
           created_at := t, updated_at := t }] ∧
      db'.nextId = db.nextId + 1 ∧
      cd.id = db.nextId ∧ cd.name = d.name ∧ cd.type = d.type ∧
      cd.status = d.status.getD "offline" ∧
      Json.parse (d.config.getD "{}") = some cd.config ∧
      cd.toJson.getField "id" = some (.num cd.id) ∧
      cd.toJson.getField "name" = some (.str cd.name) ∧
      cd.toJson.getField "type" = some (.str cd.type) ∧
      cd.toJson.getField "status" = some (.str cd.status) ∧
      cd.toJson.getField "config" = some cd.config ∧
      cd.toJson.getField "created_at" = none ∧
      cd.toJson.getField "updated_at" = none) ∧
    (∀ db t body cd, (routePost db t body).resp = .created cd →
      ∃ v db', validateCreate body = .ok v ∧
        createDevice db t
          { name := v.name, type := v.type,
            status := some (v.status.getD "offline"),
            config := some (Json.stringify (.obj (v.config.getD .nil))) } =
          (.ok cd, db') ∧
        routePost db t body = ⟨.created cd, db', [.createOp]⟩) := by
  constructor
  · intro db t d cd db' h
    unfold createDevice at h
    dsimp only at h
    split at h
    · next j hj =>
      rw [Prod.mk.injEq] at h
      obtain ⟨h1, h2⟩ := h
      injection h1 with h1
      subst h2
      subst h1
      refine ⟨rfl, rfl, rfl, rfl, rfl, rfl, hj, ?_, ?_, ?_, ?_, ?_, ?_, ?_⟩ <;>
        simp [CreatedDevice.toJson, Json.getField, jsonObjLookup]
    · next hj =>
      rw [Prod.mk.injEq] at h
      obtain ⟨h1, h2⟩ := h
      cases h1
  · intro db t body cd h
    unfold routePost at h
    split at h
    · cases h
    · next v hval =>
      split at h
      · next d db' hcr =>
        dsimp only at h
        injection h with h
        subst h
        exact ⟨v, db', hval, hcr, by unfold routePost; rw [hval]; dsimp only; rw [hcr]⟩
      · next db' hcr =>
        cases h

def exCreated : CreatedDevice :=
  { id := 1, name := "Living Room Light", type := "light", status := "on",
    config := .obj .nil }

/-- C3 counterexample: the concrete 201 `device` object for a successful
create carries no `created_at`/`updated_at` keys, though the claim says
it contains every Device field including both timestamps. -/
theorem C3_counterexample :
    (createDevice DB.empty 5 sampleCreate).1 = .ok exCreated ∧
    exCreated.toJson.getField "created_at" = none ∧
    exCreated.toJson.getField "updated_at" = none ∧
    (routePost DB.empty 5
      { name := some (.str "Living Room Light"), type := some (.str "light"),
        status := some (.str "on"), config := none }).resp = .created exCreated := by
  decide

/-- C3 witness: the amended statement applied to a concrete create. -/
theorem C3_witness :
    (createDevice DB.empty 5 sampleCreate).2.rows = [exRow] ∧
    exCreated.toJson.getField "config" = some (.obj .nil) ∧
    exCreated.toJson.getField "created_at" = none := by
  obtain ⟨hrows, hnext, hid, hname, hty, hst, hparse, hjid, hjname, hjty, hjst,
    hjcfg, hjcreated, hjupdated⟩ :=
    C3_create_returns.1 DB.empty 5 sampleCreate exCreated exDB (by decide)
  exact ⟨by rw [show (createDevice DB.empty 5 sampleCreate).2 = exDB from by decide, hrows]; rfl,
    hjcfg, hjcreated⟩

/-- C4: immediately after a successful create (no intervening write),
`getById` on the returned id yields a record with the same id, name,
type, status and config as the object `create` returned, and with
`created_at = updated_at` (both equal to the creation tick).  The
hypothesis `DB.Inv` is the AUTOINCREMENT invariant (every stored id is
below the counter), which holds in every reachable state. -/
theorem C4_getById_after_create (db : DB) (t : Nat) (d : CreateData)
    (cd : CreatedDevice) (db' : DB) (hInv : DB.Inv db)
    (h : createDevice db t d = (.ok cd, db')) :
    getDeviceById db' cd.id =
      .ok (some { id := cd.id, name := cd.name, type := cd.type,
                  status := cd.status, config := cd.config,
                  created_at := t, updated_at := t }) := by
  unfold createDevice at h
  dsimp only at h
  split at h
  · next j hj =>
    rw [Prod.mk.injEq] at h
    obtain ⟨h1, h2⟩ := h
    injection h1 with h1
    subst h1
    subst h2
    unfold getDeviceById
    dsimp only
    rw [List.find?_append]
    have hnone : db.rows.find? (fun row => row.id == db.nextId) = none := by
      apply List.find?_eq_none.mpr
      intro x hx
      have := hInv x hx
      simp
      omega
    rw [hnone]
    have htext : d.config.getD "{}" ≠ "" := by
      intro he
      rw [he, Json.parse_empty] at hj
      cases hj
    simp only [List.find?, beq_self_eq_true, Option.or]
    unfold formatDeviceRow
    rw [show rowConfigText
        { id := db.nextId, name := d.name, type := d.type,
          status := d.status.getD "offline", config := d.config.getD "{}",
          created_at := t, updated_at := t } = d.config.getD "{}" from if_neg htext]
    rw [hj]
    rfl
  · next hj =>
    rw [Prod.mk.injEq] at h
    obtain ⟨h1, h2⟩ := h
    cases h1

/-- C4 witness: concrete create on the empty store. -/
theorem C4_witness :
    getDeviceById exDB exCreated.id =
      .ok (some { id := 1, name := "Living Room Light", type := "light",
                  status := "on", config := .obj .nil,
                  created_at := 5, updated_at := 5 }) := by
  exact C4_getById_after_create DB.empty 5 sampleCreate exCreated exDB
    (by intro row hrow; cases hrow) (by decide)

/-- C6: `POST /devices` with a valid name (1–100 chars) and a valid type
and with `status`/`config` omitted succeeds with 201; the created record
has `status = "offline"` and `config = {}` (stored text `'{}'`). -/
theorem C6_create_defaults (db : DB) (t : Nat) (name ty : String)
    (h1 : 1 ≤ name.length) (h2 : name.length ≤ 100) (h3 : ty ∈ typeEnum) :
    routePost db t
      { name := some (.str name), type := some (.str ty),
        status := none, config := none } =
      ⟨.created { id := db.nextId, name := name, type := ty,
                  status := "offline", config := .obj .nil },
       { rows := db.rows ++
           [{ id := db.nextId, name := name, type := ty, status := "offline",
              config := "{}", created_at := t, updated_at := t }],
         nextId := db.nextId + 1 },
       [.createOp]⟩ ∧
    Resp.status (.created { id := db.nextId, name := name, type := ty, status := "offline", config := .obj .nil }) = 201 := by
  have hname1 : ¬ (name.length < 1) := by omega
  have hname2 : ¬ (100 < name.length) := by omega
  have hty : typeEnum.contains ty = true := by simpa using h3
  have hval : validateCreate
      { name := some (.str name), type := some (.str ty),
        status := none, config := none } =
      .ok { name := name, type := ty, status := none, config := none } := by
    unfold validateCreate validateName validateType validateStatusOpt validateConfigOpt
    dsimp only
    rw [if_neg hname1, if_neg hname2, if_pos hty]
    rfl
  constructor
  · unfold routePost
    rw [hval]
    dsimp only
    unfold createDevice
    simp only [Option.getD_some]
    rw [Json.parse_stringify]
    rfl
  · rfl

/-- C6 witness: a concrete valid create with omitted status/config. -/
theorem C6_witness :
    routePost DB.empty 3
      { name := some (.str "Kitchen Light"), type := some (.str "light"),
        status := none, config := none } =
      ⟨.created { id := 1, name := "Kitchen Light", type := "light",
                  status := "offline", config := .obj .nil },
       { rows := [{ id := 1, name := "Kitchen Light", type := "light",
                    status := "offline", config := "{}", created_at := 3,
                    updated_at := 3 }],
         nextId := 2 },
       [.createOp]⟩ := by
  have h := C6_create_defaults DB.empty 3 "Kitchen Light" "light"
    (by decide) (by decide) (by decide)
  exact h.1

/-- C9: deleting an existing device via `DELETE /devices/:id` answers 200
with the short `{id, name, type}` record of the deleted device and
removes the row, so a subsequent `getById` on that id returns the
not-found signal (`ok none`); deleting an id with no matching device
answers 404 — a plain not-found response, not an exception or 500 — and
the bare store delete on an absent id reports `false` and leaves the
store unchanged. -/
theorem C9_delete_semantics :
    (∀ db seg deviceId existing, jsParseInt seg = some deviceId →
      0 < deviceId → getDeviceById db deviceId = .ok (some existing) →
      routeDelete db seg =
        ⟨.okDeleted existing.id existing.name existing.type,
         { rows := db.rows.filter (fun row => row.id != deviceId),
           nextId := db.nextId },
         [.getByIdOp deviceId, .deleteOp deviceId]⟩ ∧
      getDeviceById
        { rows := db.rows.filter (fun row => row.id != deviceId),
          nextId := db.nextId } deviceId = .ok none) ∧
    (∀ db seg deviceId, jsParseInt seg = some deviceId → 0 < deviceId →
      getDeviceById db deviceId = .ok none →
      routeDelete db seg = ⟨.notFound deviceId, db, [.getByIdOp deviceId]⟩) ∧
    (∀ i, Resp.status (.notFound i) = 404) ∧
    (∀ db id, db.rows.find? (fun row => row.id == id) = none →
      deleteDevice db id = (false, db)) := by
  refine ⟨?_, ?_, fun i => rfl, ?_⟩
  · intro db seg deviceId existing hp hpos hget
    have hfind : ∃ row, db.rows.find? (fun row => row.id == deviceId) = some row := by
      obtain ⟨row, hrow, -⟩ := getDeviceById_ok_some db deviceId existing hget
      exact ⟨row, hrow⟩
    obtain ⟨row0, hrow0⟩ := hfind
    have hmem := List.mem_of_find?_eq_some hrow0
    have hpred := List.find?_some hrow0
    have hmemf : row0 ∈ db.rows.filter (fun row => row.id == deviceId) :=
      List.mem_filter.mpr ⟨hmem, hpred⟩
    have hlen : ((db.rows.filter (fun row => row.id == deviceId)).length != 0) = true := by
      have hpos' := List.length_pos.mpr (List.ne_nil_of_mem hmemf)
      simpa using Nat.pos_iff_ne_zero.mp hpos'
    constructor
    · unfold routeDelete
      rw [hp]
      dsimp only
      rw [if_neg (by omega)]
      rw [hget]
      dsimp only
      unfold deleteDevice
      dsimp only
      rw [if_pos hlen]
    · unfold getDeviceById
      have hnone : (db.rows.filter (fun row => row.id != deviceId)).find?
          (fun row => row.id == deviceId) = none := by
        apply List.find?_eq_none.mpr
        intro x hx
        have := (List.mem_filter.mp hx).2
        simp only [bne_iff_ne, ne_eq] at this
        simp [this]
      rw [hnone]
  · intro db seg deviceId hp hpos hget
    unfold routeDelete
    rw [hp]
    dsimp only
    rw [if_neg (by omega)]
    rw [hget]
  · intro db id hfind
    have hall : ∀ x ∈ db.rows, ¬ ((fun row => row.id == id) x = true) :=
      List.find?_eq_none.mp hfind
    have h1 : db.rows.filter (fun row => row.id == id) = [] :=
      List.filter_eq_nil_iff.mpr (by intro a ha; exact hall a ha)
    have h2 : db.rows.filter (fun row => row.id != id) = db.rows := by
      apply List.filter_eq_self.mpr
      intro a ha
      have := hall a ha
      simpa using this
    unfold deleteDevice
    rw [h1, h2]
    rfl

/-- C9 witness: deleting the single device of `exDB` via segment `"1"`,
then observing not-found; and deleting on the empty store answers 404. -/
theorem C9_witness :
    routeDelete exDB "1" =
      ⟨.okDeleted 1 "Living Room Light" "light", ⟨[], 2⟩,
       [.getByIdOp 1, .deleteOp 1]⟩ ∧
    getDeviceById (⟨[], 2⟩ : DB) 1 = .ok none ∧
    routeDelete DB.empty "1" = ⟨.notFound 1, DB.empty, [.getByIdOp 1]⟩ := by
  have hA := C9_delete_semantics.1 exDB "1" 1
    { id := 1, name := "Living Room Light", type := "light", status := "on",
      config := .obj .nil, created_at := 5, updated_at := 5 }
    (by decide) (by decide) (by decide)
  have hB := C9_delete_semantics.2.1 DB.empty "1" 1 (by decide) (by decide) (by decide)
  refine ⟨?_, ?_, hB⟩
  · rw [hA.1]
    rfl
  · have := hA.2
    rw [show ({ rows := exDB.rows.filter (fun row => row.id != 1), nextId := exDB.nextId } : DB) = (⟨[], 2⟩ : DB) from by decide] at this
    exact this

theorem formatRows_ok_facts : ∀ (rs : List DeviceRow) (ds : List Device),
    formatRows rs = .ok ds →
    ds.length = rs.length ∧
    ds.map Device.created_at = rs.map DeviceRow.created_at ∧
    ds.map Device.id = rs.map DeviceRow.id
  | [], ds, h => by
    cases h
    exact ⟨rfl, rfl, rfl⟩
  | r :: rs, ds, h => by
    unfold formatRows at h
    split at h
    · next d ds' hd hds =>
      cases h
      obtain ⟨hlen, hcr, hid⟩ := formatRows_ok_facts rs ds' hds
      obtain ⟨hid', -, -, -, hcr', -, -⟩ := formatDeviceRow_ok r d hd
      refine ⟨by simp [hlen], ?_, ?_⟩
      · simp only [List.map_cons, hcr, hcr']
      · simp only [List.map_cons, hid, hid']
    · cases h
    · cases h

theorem formatRows_ok_of_WF : ∀ rs : List DeviceRow,
    (∀ row ∈ rs, (Json.parse (rowConfigText row)).isSome) →
    ∃ ds, formatRows rs = .ok ds
  | [], _ => ⟨[], rfl⟩
  | r :: rs, hwf => by
    obtain ⟨j, hj⟩ := Option.isSome_iff_exists.mp (hwf r (by simp))
    have hfmt : formatDeviceRow r =
        .ok { id := r.id, name := r.name, type := r.type, status := r.status,
              config := j, created_at := r.created_at, updated_at := r.updated_at } := by
      unfold formatDeviceRow
      rw [hj]
    obtain ⟨ds, hds⟩ := formatRows_ok_of_WF rs (fun row hrow => hwf row (by simp [hrow]))
    refine ⟨{ id := r.id, name := r.name, type := r.type, status := r.status, config := j, created_at := r.created_at, updated_at := r.updated_at } :: ds, ?_⟩
    unfold formatRows
    rw [hfmt, hds]

instance : IsTotal DeviceRow createdDesc :=
  ⟨fun a b => le_total b.created_at a.created_at⟩

instance : IsTrans DeviceRow createdDesc :=
  ⟨fun _ _ _ hab hbc => le_trans hbc hab⟩

/-- C7 (amended): for every store state whose stored config texts all
deserialize (in particular every state reachable through the HTTP
interface alone — see the config well-formedness preservation results),
`GET /devices` answers 200 with `count` equal to the number of stored
rows and one summary per row, ordered by `created_at` descending; no
summary carries a `config` key (the summary ignores the stored config
entirely), while the full record of a 200 `GET /devices/:id` always
carries `config`.  On a state with an unparseable stored config the list
route produces no 200 response at all: the parse throw escapes the
sqlite3 callback as an uncaught exception without rejecting the promise,
so no response is sent. -/
theorem C7_list_summaries :
    (∀ db, DB.ConfigsWF db →
      ∃ devices, getAllDevices db = .ok devices ∧
        routeList db = ⟨.okList devices.length (devices.map summaryOf), db, [.listOp]⟩ ∧
        Resp.status (.okList devices.length (devices.map summaryOf)) = 200 ∧
        devices.length = db.rows.length ∧
        (devices.map Device.id).Perm (db.rows.map DeviceRow.id) ∧
        (devices.map Device.created_at).Sorted (fun a b => b ≤ a)) ∧
    (∀ ds : DeviceSummary, ds.toJson.getField "config" = none) ∧
    (∀ d : Device, (summaryOf d).toJson.getField "config" = none) ∧
    (∀ d : Device, ∀ c : Json, summaryOf d = summaryOf { d with config := c }) ∧
    (∀ d : Device, d.toJson.getField "config" = some d.config) ∧
    (∀ db seg m dOpt, (routeGetById db seg).resp = .okDevice m dOpt →
      ∃ d, dOpt = some d) := by
  refine ⟨?_, ?_, ?_, fun d c => rfl, ?_, ?_⟩
  · intro db hwf
    have hwf' : ∀ row ∈ List.insertionSort createdDesc db.rows,
        (Json.parse (rowConfigText row)).isSome := by
      intro row hrow
      exact hwf row ((List.mem_insertionSort createdDesc).mp hrow)
    obtain ⟨ds, hds⟩ := formatRows_ok_of_WF _ hwf'
    have hga : getAllDevices db = .ok ds := hds
    obtain ⟨hlen, hcr, hid⟩ := formatRows_ok_facts _ _ hds
    have hperm := List.perm_insertionSort createdDesc db.rows
    refine ⟨ds, hga, ?_, rfl, ?_, ?_, ?_⟩
    · unfold routeList
      rw [hga]
    · rw [hlen, hperm.length_eq]
    · rw [hid]
      exact hperm.map DeviceRow.id
    · rw [hcr]
      have hsorted := List.sorted_insertionSort createdDesc db.rows
      exact List.Pairwise.map DeviceRow.created_at (fun a b hab => hab) hsorted
  · intro ds
    simp [DeviceSummary.toJson, Json.getField, jsonObjLookup]
  · intro d
    simp [summaryOf, DeviceSummary.toJson, Json.getField, jsonObjLookup]
  · intro d
    simp [Device.toJson, Json.getField, jsonObjLookup]
  · intro db seg m dOpt h
    unfold routeGetById at h
    split at h
    · cases h
    · next deviceId _ =>
      split at h
      · cases h
      · split at h
        · cases h
        · cases h
        · next d hd =>
          cases h
          exact ⟨d, rfl⟩

def oopsCreate : CreateData :=
  { name := "X", type := "other", status := none, config := none }

def badCreated : CreatedDevice :=
  { id := 1, name := "X", type := "other", status := "offline", config := .obj .nil }

def badRow0 : DeviceRow :=
  { id := 1, name := "X", type := "other", status := "offline", config := "{}",
    created_at := 5, updated_at := 5 }

def badDB0 : DB := ⟨[badRow0], 2⟩

/-- A store state with an unparseable stored config text, reached through
the store interface alone (create, then update with a raw string). -/
def badRow : DeviceRow :=
  { id := 1, name := "X", type := "other", status := "offline", config := "oops",
    created_at := 5, updated_at := 6 }

def badDB : DB := ⟨[badRow], 2⟩

/-- C7 counterexample: `badDB` is reachable through the store interface,
and on it `GET /devices` produces no response at all (the stored-config
parse throw escapes the sqlite3 callback uncaught, never rejecting the
promise) — in particular not the claimed 200 list response, so the
claim's "for every store state" quantification fails. -/
theorem C7_counterexample :
    createDevice DB.empty 5 oopsCreate = (.ok badCreated, badDB0) ∧
    updateDevice badDB0 6 1 { status := none, config := some (.str "oops") } =
      .ok (some true, badDB) ∧
    routeList badDB = ⟨.noResponse, badDB, [.listOp]⟩ ∧
    (routeList badDB).resp.isOkList = false := by decide

def exDev : Device :=
  { id := 1, name := "Living Room Light", type := "light", status := "on",
    config := .obj .nil, created_at := 5, updated_at := 5 }

/-- C7 witness: the amended statement applied to the one-device state
`exDB`, whose configs are well-formed. -/
theorem C7_witness :
    routeList exDB = ⟨.okList 1 [summaryOf exDev], exDB, [.listOp]⟩ ∧
    (summaryOf exDev).toJson.getField "config" = none ∧
    exDev.toJson.getField "config" = some (.obj .nil) := by
  obtain ⟨ds, h1, h2, h3, h4, h5, h6⟩ :=
    C7_list_summaries.1 exDB (by intro row hrow; cases hrow with
      | head => decide
      | tail _ h => cases h)
  have hconc : getAllDevices exDB = .ok [exDev] := by decide
  rw [h1] at hconc
  injection hconc with hds
  subst hds
  exact ⟨h2, C7_list_summaries.2.2.1 exDev, C7_list_summaries.2.2.2.2.1 exDev⟩

theorem parse_isSome_of_stringify (j : Json) (row : DeviceRow)
    (h : row.config = Json.stringify j) :
    (Json.parse (rowConfigText row)).isSome := by
  rw [rowConfigText_eq row (by rw [h]; exact Json.stringify_ne_empty j), h,
    Json.parse_stringify]
  rfl

theorem createDevice_rows (db : DB) (t : Nat) (d : CreateData) :
    ((createDevice db t d).2).rows = db.rows ++
      [{ id := db.nextId, name := d.name, type := d.type,
         status := d.status.getD "offline", config := d.config.getD "{}",
         created_at := t, updated_at := t }] ∧
    ((createDevice db t d).2).nextId = db.nextId + 1 := by
  unfold createDevice
  dsimp only
  split <;> exact ⟨rfl, rfl⟩

theorem configsWF_update_js (db : DB) (t : Nat) (id : Int) (u : UpdateData)
    (hwf : DB.ConfigsWF db)
    (hc : u.config = none ∨ ∃ j, u.config = some (.js j)) :
    ∀ r db', updateDevice db t id u = .ok (r, db') → DB.ConfigsWF db' := by
  intro r db' h
  have hrows := (updateDevice_ok db t id u r db' h).2
  intro row hrow
  rw [hrows] at hrow
  obtain ⟨orig, horigmem, horig⟩ := List.mem_map.mp hrow
  by_cases hid : (orig.id == id) = true
  · rw [if_pos hid] at horig
    rcases hc with hnone | ⟨j, hjs⟩
    · have hcfg : (applyUpdate u t orig).config = orig.config := by
        simp [applyUpdate, hnone]
      have htext : rowConfigText (applyUpdate u t orig) = rowConfigText orig := by
        unfold rowConfigText
        rw [hcfg]
      rw [← horig, htext]
      exact hwf orig horigmem
    · have hcfg : (applyUpdate u t orig).config = Json.stringify j := by
        simp [applyUpdate, hjs, ensureStringConfig]
      rw [← horig]
      exact parse_isSome_of_stringify j _ hcfg
  · rw [if_neg hid] at horig
    rw [← horig]
    exact hwf orig horigmem

/-- Config well-formedness is preserved by every HTTP handler: the
validators only let objects through and the routes serialize them before
they reach the store, while reads leave the store untouched. -/
theorem configsWF_http_preserved (db : DB) (hwf : DB.ConfigsWF db) :
    (∀ t body, DB.ConfigsWF ((routePost db t body).db)) ∧
    (∀ t seg body, DB.ConfigsWF ((routePut db t seg body).db)) ∧
    (∀ seg, DB.ConfigsWF ((routeDelete db seg).db)) ∧
    (∀ seg, (routeGetById db seg).db = db) ∧
    ((routeList db).db = db) := by
  have hcreate : ∀ t (d : CreateData) j, d.config = some (Json.stringify j) →
      DB.ConfigsWF ((createDevice db t d).2) := by
    intro t d j hcfg row hrow
    rw [(createDevice_rows db t d).1] at hrow
    rcases List.mem_append.mp hrow with hold | hnew
    · exact hwf row hold
    · cases hnew with
      | head => exact parse_isSome_of_stringify j _ (by rw [hcfg]; rfl)
      | tail _ hnil => cases hnil
  refine ⟨?_, ?_, ?_, ?_, ?_⟩
  · intro t body
    unfold routePost
    split
    · exact hwf
    · next v hv =>
      split
      · next d db' hcr =>
        have hpres := hcreate t
          { name := v.name, type := v.type, status := some (v.status.getD "offline"), config := some (Json.stringify (.obj (v.config.getD .nil))) }
          (.obj (v.config.getD .nil)) rfl
        rw [hcr] at hpres
        exact hpres
      · next db' hcr =>
        have hpres := hcreate t
          { name := v.name, type := v.type, status := some (v.status.getD "offline"), config := some (Json.stringify (.obj (v.config.getD .nil))) }
          (.obj (v.config.getD .nil)) rfl
        rw [hcr] at hpres
        exact hpres
  · intro t seg body
    unfold routePut
    split
    · exact hwf
    · next deviceId _ =>
      split
      · exact hwf
      · split
        · exact hwf
        · next v hv =>
          split
          · exact hwf
          · exact hwf
          · next hget =>
            have hc : (v.config.map (fun kvs => ConfigArg.js (Json.obj kvs))) = none ∨
                ∃ j, (v.config.map (fun kvs => ConfigArg.js (Json.obj kvs))) = some (.js j) := by
              cases hvc : v.config with
              | none => exact Or.inl (by simp [hvc])
              | some kvs => exact Or.inr ⟨.obj kvs, by simp [hvc]⟩
            split
            · exact hwf
            · next db' hupd =>
              exact configsWF_update_js db t deviceId _ hwf hc none db' hupd
            · next r db' hupd =>
              have hwf' := configsWF_update_js db t deviceId _ hwf hc (some r) db' hupd
              split
              · exact hwf'
              · exact hwf'
  · intro seg
    unfold routeDelete
    split
    · exact hwf
    · next deviceId _ =>
      split
      · exact hwf
      · split
        · exact hwf
        · exact hwf
        · next existing hget =>
          split
          · next deleted db' hdel =>
            have hdb' : db' = { db with rows := db.rows.filter (fun row => row.id != deviceId) } := by
              unfold deleteDevice at hdel
              rw [Prod.mk.injEq] at hdel
              exact hdel.2.symm
            have hwf' : DB.ConfigsWF db' := by
              rw [hdb']
              intro row hrow
              exact hwf row (List.mem_filter.mp hrow).1
            split
            · exact hwf'
            · exact hwf'
  · intro seg
    unfold routeGetById
    split
    · rfl
    · split
      · rfl
      · split <;> rfl
  · unfold routeList
    split <;> rfl

/-- C10: at the store interface a string config is persisted verbatim
with no validity check — `updateDevice` writes the raw string into the
matched rows and `createDevice` inserts it into the new row — while every
read re-parses the stored text, so the read error branch is reachable
through the store interface alone (shown on a concrete create→update
sequence whose `getById`/`getAllDevices` then fail with the parse error);
the HTTP validators, by contrast, only accept an object for `config` and
the routes serialize it before it reaches the store, so config
well-formedness (every read succeeds) is an invariant of states produced
exclusively through the HTTP handlers. -/
theorem C10_config_opacity :
    (∀ db t id s r db',
      updateDevice db t id { status := none, config := some (.str s) } =
        .ok (r, db') →
      db'.rows = db.rows.map (fun row => if row.id == id then
        applyUpdate { status := none, config := some (.str s) } t row else row)) ∧
    (∀ t s row,
      (applyUpdate { status := none, config := some (ConfigArg.str s) } t row).config = s) ∧
    (∀ db t d s, d.config = some s →
      ((createDevice db t d).2).rows = db.rows ++
        [{ id := db.nextId, name := d.name, type := d.type,
           status := d.status.getD "offline", config := s,
           created_at := t, updated_at := t }]) ∧
    (createDevice DB.empty 5 oopsCreate = (.ok badCreated, badDB0) ∧
      updateDevice badDB0 6 1 { status := none, config := some (.str "oops") } =
        .ok (some true, badDB) ∧
      getDeviceById badDB 1 = .error .jsonParseError ∧
      getAllDevices badDB = .error .jsonParseError) ∧
    (∀ db, DB.ConfigsWF db →
      (∀ t body, DB.ConfigsWF ((routePost db t body).db)) ∧
      (∀ t seg body, DB.ConfigsWF ((routePut db t seg body).db)) ∧
      (∀ seg, DB.ConfigsWF ((routeDelete db seg).db)) ∧
      (∀ seg, (routeGetById db seg).db = db) ∧
      ((routeList db).db = db)) ∧
    (∀ c v, validateConfigOpt (some c) = .ok v → ∃ kvs, c = .obj kvs ∧ v = some kvs) := by
  refine ⟨?_, fun t s row => rfl, ?_, by decide, configsWF_http_preserved, ?_⟩
  · intro db t id s r db' h
    exact (updateDevice_ok db t id _ r db' h).2
  · intro db t d s hcfg
    rw [(createDevice_rows db t d).1, hcfg]
    simp
  · intro c v h
    cases c <;> simp [validateConfigOpt] at h
    next kvs => exact ⟨kvs, rfl, h.symm⟩

def exRowRaw : DeviceRow :=
  { id := 1, name := "Living Room Light", type := "light", status := "on",
    config := "raw", created_at := 5, updated_at := 8 }

def exDBRaw : DB := ⟨[exRowRaw], 2⟩

def rawCreate : CreateData :=
  { name := "X", type := "other", status := none, config := some "nonsense" }

/-- C10 witness: concrete raw-string writes through the store interface
and a concrete HTTP read leaving a well-formed store untouched. -/
theorem C10_witness :
    exDBRaw.rows = exDB.rows.map (fun row => if row.id == (1 : Int) then
      applyUpdate { status := none, config := some (.str "raw") } 8 row else row) ∧
    (applyUpdate { status := none, config := some (ConfigArg.str "raw") } 8 exRow).config = "raw" ∧
    ((createDevice DB.empty 7 rawCreate).2).rows =
      [] ++ [{ id := 1, name := "X", type := "other", status := "offline",
               config := "nonsense", created_at := 7, updated_at := 7 }] ∧
    (routeGetById exDB "1").db = exDB ∧
    (∃ kvs, Json.obj .nil = Json.obj kvs ∧ (some JsonObj.nil : Option JsonObj) = some kvs) := by
  have h := C10_config_opacity
  refine ⟨h.1 exDB 8 1 "raw" (some true) exDBRaw (by decide),
    h.2.1 8 "raw" exRow,
    h.2.2.1 DB.empty 7 rawCreate "nonsense" rfl,
    (h.2.2.2.2.1 exDB (by intro row hrow; cases hrow with
      | head => decide
      | tail _ hn => cases hn)).2.2.2.1 "1",
    h.2.2.2.2.2 (.obj .nil) (some .nil) rfl⟩
